import Mathlib

/-!
Shallow embedding of the SmartExpenseTracker state-and-rendering engine
(the `script.js` source and the second, category-filter-aware script variant
shipped with the repository, which the specification adopts as the intended
design).  JavaScript numbers are modeled as exact rationals, `YYYY-MM-DD`
date strings as parsed calendar triples, and the single localStorage key as
an optional stored value.
-/

/-- A calendar date: the parse of a `YYYY-MM-DD` date string, i.e. the triple
produced by `date.split('-').map(Number)`.  The JavaScript constructor
`new Date(y, m - 1, d)` is the identity on in-range triples (the only triples
producible by the date input control and the persisted `YYYY-MM-DD` format),
so its `getFullYear`/`getMonth` reads are modeled by the `year` field and
`month - 1`. -/
structure CalDate where
  year : Nat
  month : Nat
  day : Nat
  deriving DecidableEq

/-- Leap-year rule of the Gregorian calendar, used to bound valid days. -/
def isLeapYear (y : Nat) : Bool :=
  (y % 4 == 0 && y % 100 != 0) || y % 400 == 0

/-- Number of days of month `m` (1-based) of year `y`. -/
def daysInMonth (y m : Nat) : Nat :=
  if m = 2 then (if isLeapYear y then 29 else 28)
  else if m = 4 ∨ m = 6 ∨ m = 9 ∨ m = 11 then 30
  else 31

/-- The triple is an actual calendar date, as produced by the date input and
the persistence format. -/
def ValidDate (d : CalDate) : Prop :=
  1 ≤ d.month ∧ d.month ≤ 12 ∧ 1 ≤ d.day ∧ d.day ≤ daysInMonth d.year d.month

instance (d : CalDate) : Decidable (ValidDate d) := by
  unfold ValidDate; infer_instance

/-- An expense record as the application stores it: fields exactly as built by
`validateExpenseForm` and as persisted to localStorage.  The category is kept
as a raw string because neither validation nor the load path restricts it to
the fixed set. -/
structure Expense where
  id : String
  amount : ℚ
  category : String
  description : String
  date : CalDate
  deriving DecidableEq

/-- The fixed category set, the keys of `getCategoryIcon`/`getCategoryName`
and of the category select control. -/
def fixedCategories : List String :=
  ["food", "transport", "shopping", "entertainment", "healthcare",
   "utilities", "education", "other"]

/-- The mutable `appState` object of the adopted script variant. -/
structure AppState where
  expenses : List Expense
  monthlyBudget : ℚ
  warningTimeoutId : Option Nat
  currentMonth : Nat
  currentYear : Nat
  selectedFilter : String
  deriving DecidableEq

/-- `isCurrentMonth` of the adopted variant: the date string is split into a
triple and rebuilt as a local date (no timezone shift), whose month and year
are compared with the state's period.  `getMonth()` is 0-based, hence the
`- 1`. -/
def isCurrentMonth (st : AppState) (e : Expense) : Bool :=
  e.date.month - 1 == st.currentMonth && e.date.year == st.currentYear

/-- `calculateTotalSpent`: left fold of `+` over the amounts of the expenses
passing the `isCurrentMonth` filter, starting from `0`. -/
def calculateTotalSpent (st : AppState) : ℚ :=
  (st.expenses.filter (fun e => isCurrentMonth st e)).foldl
    (fun total e => total + e.amount) 0

/-- Specification-side period membership: the expense's calendar month/year
equal the (0-based month, year) period. -/
def InPeriod (d : CalDate) (m y : Nat) : Prop :=
  d.month = m + 1 ∧ d.year = y

instance (d : CalDate) (m y : Nat) : Decidable (InPeriod d m y) := by
  unfold InPeriod; infer_instance

theorem isCurrentMonth_iff (st : AppState) (e : Expense) (hv : ValidDate e.date) :
    isCurrentMonth st e = true ↔ InPeriod e.date st.currentMonth st.currentYear := by
  obtain ⟨h1, _, _, _⟩ := hv
  simp only [isCurrentMonth, InPeriod, Bool.and_eq_true, beq_iff_eq]
  omega

theorem foldl_add_amount (l : List Expense) (q : ℚ) :
    l.foldl (fun t e => t + e.amount) q = q + (l.map Expense.amount).sum := by
  induction l generalizing q with
  | nil => simp
  | cons e l ih => simp [ih, List.sum_cons]; ring

/-- C1: for every expense list (of parseable calendar dates) and period, the
total-spent computation returns the sum of the amounts of exactly the
expenses whose date, read as a local calendar date, lies in the period; it
returns 0 on the empty list, and appending an out-of-period expense never
changes the result. -/
theorem calculateTotalSpent_period_sum (st : AppState)
    (hv : ∀ e ∈ st.expenses, ValidDate e.date) :
    calculateTotalSpent st
        = ((st.expenses.filter fun e =>
              decide (InPeriod e.date st.currentMonth st.currentYear)).map
            Expense.amount).sum
      ∧ (st.expenses = [] → calculateTotalSpent st = 0)
      ∧ ∀ e : Expense, ValidDate e.date →
          ¬ InPeriod e.date st.currentMonth st.currentYear →
          calculateTotalSpent { st with expenses := st.expenses ++ [e] }
            = calculateTotalSpent st := by
  have hfilter : ∀ (l : List Expense), (∀ e ∈ l, ValidDate e.date) →
      l.filter (fun e => isCurrentMonth st e)
        = l.filter (fun e => decide (InPeriod e.date st.currentMonth st.currentYear)) := by
    intro l hl
    apply List.filter_congr
    intro e he
    have := isCurrentMonth_iff st e (hl e he)
    by_cases h : isCurrentMonth st e = true
    · simp [h, (this.mp h)]
    · simp only [Bool.not_eq_true] at h
      simp only [h]
      have : ¬ InPeriod e.date st.currentMonth st.currentYear := fun hp => by
        have := this.mpr hp; simp [h] at this
      simp [this]
  refine ⟨?_, ?_, ?_⟩
  · rw [calculateTotalSpent, hfilter st.expenses hv, foldl_add_amount]
    ring
  · intro h
    simp [calculateTotalSpent, h]
  · intro e hve hnp
    have he : isCurrentMonth st e = false := by
      by_cases h : isCurrentMonth st e = true
      · exact absurd ((isCurrentMonth_iff st e hve).mp h) hnp
      · simpa using h
    have hdef : calculateTotalSpent { st with expenses := st.expenses ++ [e] }
        = ((st.expenses ++ [e]).filter (fun x => isCurrentMonth st x)).foldl
            (fun total x => total + x.amount) 0 := rfl
    rw [hdef, List.filter_append]
    have h2 : [e].filter (fun x => isCurrentMonth st x) = [] := by
      simp [List.filter_cons, he]
    rw [h2, List.append_nil]
    rfl

/-- Witness for C1 at a concrete two-expense state: one January-2024 expense
in the period, one December-2023 expense outside it. -/
theorem calculateTotalSpent_period_sum_witness :
    calculateTotalSpent
        { expenses :=
            [{ id := "a1", amount := 7, category := "food",
               description := "lunch", date := ⟨2024, 1, 15⟩ },
             { id := "a2", amount := 3, category := "transport",
               description := "bus", date := ⟨2023, 12, 30⟩ }],
          monthlyBudget := 100, warningTimeoutId := none,
          currentMonth := 0, currentYear := 2024, selectedFilter := "all" }
      = (([({ id := "a1", amount := 7, category := "food",
              description := "lunch", date := ⟨2024, 1, 15⟩ } : Expense),
           { id := "a2", amount := 3, category := "transport",
             description := "bus", date := ⟨2023, 12, 30⟩ }].filter fun e =>
            decide (InPeriod e.date 0 2024)).map Expense.amount).sum :=
  (calculateTotalSpent_period_sum _ (by decide)).1

/-!  The warning-banner/timer subsystem (`showBudgetWarning` /
`hideBudgetWarning`).  Timeouts are modeled explicitly: `activeTimers` is the
runtime's schedule of pending (armed, not yet fired, not cancelled) timeouts
as (handle, fire-time) pairs, `fresh` the next handle `setTimeout` hands out,
and `warningTimeoutId` the application's stored handle.  One time unit stands
for one second (`5` models the 5000 ms auto-dismiss delay). -/

structure AlertSt where
  shown : Bool
  warningTimeoutId : Option Nat
  activeTimers : List (Nat × Nat)
  fresh : Nat
  deriving DecidableEq

/-- `hideBudgetWarning`: remove the banner; if a handle is stored, cancel
that timeout (`clearTimeout`) and null the handle. -/
def hideBudgetWarning (s : AlertSt) : AlertSt :=
  { shown := false
    warningTimeoutId := none
    activeTimers :=
      match s.warningTimeoutId with
      | some id => s.activeTimers.filter (fun p => p.1 != id)
      | none => s.activeTimers
    fresh := s.fresh }

/-- `showBudgetWarning` invoked at time `t`: cancel any stored timeout, show
the banner, schedule auto-dismiss 5 time units later, store the new handle. -/
def showBudgetWarning (t : Nat) (s : AlertSt) : AlertSt :=
  let act :=
    match s.warningTimeoutId with
    | some id => s.activeTimers.filter (fun p => p.1 != id)
    | none => s.activeTimers
  { shown := true
    warningTimeoutId := some s.fresh
    activeTimers := act ++ [(s.fresh, t + 5)]
    fresh := s.fresh + 1 }

/-- The runtime dispatches a due timeout: it leaves the schedule and its
callback (which is `hideBudgetWarning`) runs.  With an empty schedule nothing
can fire. -/
def fireTimer (s : AlertSt) : AlertSt :=
  match s.activeTimers with
  | [] => s
  | _ :: rest => hideBudgetWarning { s with activeTimers := rest }

/-- The three things that can happen to the alert subsystem: the reconciler
arms the warning at some time, a scheduled timeout expires, or the user
dismisses manually. -/
inductive AlertEvent where
  | arm (t : Nat)
  | fire
  | dismiss
  deriving DecidableEq

def alertStep (e : AlertEvent) (s : AlertSt) : AlertSt :=
  match e with
  | .arm t => showBudgetWarning t s
  | .fire => fireTimer s
  | .dismiss => hideBudgetWarning s

/-- Initial alert state: banner hidden, `warningTimeoutId: null`, nothing
scheduled. -/
def alertInit : AlertSt := ⟨false, none, [], 0⟩

def alertRun (evs : List AlertEvent) : AlertSt :=
  evs.foldl (fun s e => alertStep e s) alertInit

/-- The timer invariant: either nothing is stored and nothing is scheduled,
or exactly the stored handle is scheduled. -/
def AlertInv (s : AlertSt) : Prop :=
  (s.warningTimeoutId = none ∧ s.activeTimers = []) ∨
  (∃ id t, s.warningTimeoutId = some id ∧ s.activeTimers = [(id, t)])

theorem alertInv_step (e : AlertEvent) (s : AlertSt) (h : AlertInv s) :
    AlertInv (alertStep e s) := by
  cases e with
  | arm t =>
      rcases h with ⟨h1, h2⟩ | ⟨id, τ, h1, h2⟩ <;>
        exact Or.inr ⟨s.fresh, t + 5, by simp [alertStep, showBudgetWarning],
          by simp [alertStep, showBudgetWarning, h1, h2]⟩
  | fire =>
      rcases h with ⟨h1, h2⟩ | ⟨id, τ, h1, h2⟩ <;>
        exact Or.inl (by simp [alertStep, fireTimer, hideBudgetWarning, h1, h2])
  | dismiss =>
      rcases h with ⟨h1, h2⟩ | ⟨id, τ, h1, h2⟩ <;>
        exact Or.inl (by simp [alertStep, hideBudgetWarning, h1, h2])

theorem alertInv_foldl (l : List AlertEvent) (s : AlertSt) (h : AlertInv s) :
    AlertInv (l.foldl (fun s e => alertStep e s) s) := by
  induction l generalizing s with
  | nil => exact h
  | cons e l ih => exact ih _ (alertInv_step e s h)

theorem alertInv_run (evs : List AlertEvent) : AlertInv (alertRun evs) :=
  alertInv_foldl evs alertInit (Or.inl ⟨rfl, rfl⟩)

theorem alertRun_append (evs l : List AlertEvent) :
    alertRun (evs ++ l) = l.foldl (fun s e => alertStep e s) (alertRun evs) :=
  List.foldl_append ..

/-- C2: in every execution there is at most one pending dismiss timeout;
arming twice leaves exactly one pending timeout, due 5 units after the
second arm and matching the stored handle; and after a timer expiry or a
manual dismiss the stored handle is cleared and nothing stays scheduled. -/
theorem warning_timer_single_pending :
    (∀ evs : List AlertEvent, (alertRun evs).activeTimers.length ≤ 1)
    ∧ (∀ (evs : List AlertEvent) (t1 t2 : Nat),
        ∃ id, (alertRun (evs ++ [.arm t1, .arm t2])).activeTimers = [(id, t2 + 5)]
          ∧ (alertRun (evs ++ [.arm t1, .arm t2])).warningTimeoutId = some id)
    ∧ (∀ evs : List AlertEvent,
        (alertRun (evs ++ [.fire])).warningTimeoutId = none
          ∧ (alertRun (evs ++ [.fire])).activeTimers = [])
    ∧ (∀ evs : List AlertEvent,
        (alertRun (evs ++ [.dismiss])).warningTimeoutId = none
          ∧ (alertRun (evs ++ [.dismiss])).activeTimers = []) := by
  refine ⟨?_, ?_, ?_, ?_⟩
  · intro evs
    rcases alertInv_run evs with ⟨_, h2⟩ | ⟨id, τ, _, h2⟩ <;> simp [h2]
  · intro evs t1 t2
    rw [alertRun_append]
    have h := alertInv_run evs
    set s := alertRun evs with hs
    refine ⟨s.fresh + 1, ?_, ?_⟩ <;>
      rcases h with ⟨h1, h2⟩ | ⟨id, τ, h1, h2⟩ <;>
        simp [alertStep, showBudgetWarning, h1, h2]
  · intro evs
    rw [alertRun_append]
    have h := alertInv_run evs
    rcases h with ⟨h1, h2⟩ | ⟨id, τ, h1, h2⟩ <;>
      simp [alertStep, fireTimer, hideBudgetWarning, h1, h2]
  · intro evs
    rw [alertRun_append]
    have h := alertInv_run evs
    rcases h with ⟨h1, h2⟩ | ⟨id, τ, h1, h2⟩ <;>
      simp [alertStep, hideBudgetWarning, h1, h2]

/-!  Persistence: the single localStorage key `expenseTrackerState`.  At
this typed layer the stored value is modeled as absent (`none`),
un-parseable (`corrupt`, making `JSON.parse` or the field reads throw), or
a parsed JSON object whose four expected fields may each be missing but are
well-typed when present.  An `Option` field set to `none` models a field
that is absent or falsy/nullish, matching the `||` / `??` defaulting in
`loadFromLocalStorage`.  This layer covers exactly what the save path can
produce; stored values that parse as JSON but carry wrong-typed fields —
which `loadFromLocalStorage` installs without any type check — are modeled
separately by the JavaScript-value layer (`JsVal`) further below. -/

/-- The parse of the JSON object stored under the key: the exact four fields
`saveToLocalStorage` serializes, each possibly missing. -/
structure RawSnapshot where
  expenses : Option (List Expense)
  monthlyBudget : Option ℚ
  currentMonth : Option Nat
  currentYear : Option Nat
  deriving DecidableEq

inductive StoredValue where
  | corrupt
  | snapshot (p : RawSnapshot)
  deriving DecidableEq

abbrev StoreState := Option StoredValue

/-- The object literal `saveToLocalStorage` stringifies: exactly
`{expenses, monthlyBudget, currentMonth, currentYear}` — neither
`selectedFilter` nor `warningTimeoutId` appears. -/
def snapshotOf (st : AppState) : RawSnapshot :=
  { expenses := some st.expenses
    monthlyBudget := some st.monthlyBudget
    currentMonth := some st.currentMonth
    currentYear := some st.currentYear }

/-- `saveToLocalStorage`: `sok` is whether `localStorage.setItem` succeeds.
On failure the `catch` only logs: the store keeps its old value and the
in-memory state is untouched either way. -/
def saveToLocalStorage (sok : Bool) (st : AppState) (store : StoreState) :
    AppState × StoreState :=
  if sok then (st, some (.snapshot (snapshotOf st)))
  else (st, store)

/-- `checkAndResetMonth` with the clock reporting period `now` (0-based
month, year): if the stored period differs in either component, overwrite
both period fields with the clock's and save. -/
def checkAndResetMonth (sok : Bool) (now : Nat × Nat) (st : AppState)
    (store : StoreState) : AppState × StoreState :=
  if st.currentMonth ≠ now.1 ∨ st.currentYear ≠ now.2 then
    saveToLocalStorage sok { st with currentMonth := now.1, currentYear := now.2 } store
  else (st, store)

/-- The body of `loadFromLocalStorage`'s `try` block: an absent key restores
nothing, an un-parseable value throws, and a parsed snapshot installs each
field or its default, then runs the month check. -/
def loadAttempt (sok : Bool) (now : Nat × Nat) (st : AppState)
    (store : StoreState) : Except Unit (AppState × StoreState) :=
  match store with
  | none => .ok (st, store)
  | some .corrupt => .error ()
  | some (.snapshot p) =>
      .ok (checkAndResetMonth sok now
        { st with
          expenses := p.expenses.getD []
          monthlyBudget := p.monthlyBudget.getD 0
          currentMonth := p.currentMonth.getD now.1
          currentYear := p.currentYear.getD now.2 }
        store)

/-- `loadFromLocalStorage`: the `try`/`catch` wrapper — a thrown parse error
is caught (and only logged), leaving the caller's state as it was. -/
def loadFromLocalStorage (sok : Bool) (now : Nat × Nat) (st : AppState)
    (store : StoreState) : AppState × StoreState :=
  match loadAttempt sok now st store with
  | .ok r => r
  | .error _ => (st, store)

/-- The `appState` initializer: empty expenses, budget 0, handle null,
period from the clock, filter `'all'`. -/
def defaultState (now : Nat × Nat) : AppState :=
  { expenses := [], monthlyBudget := 0, warningTimeoutId := none,
    currentMonth := now.1, currentYear := now.2, selectedFilter := "all" }

theorem checkAndResetMonth_fst (sok : Bool) (now : Nat × Nat) (st : AppState)
    (store : StoreState) :
    (checkAndResetMonth sok now st store).1
      = { st with currentMonth := now.1, currentYear := now.2 } := by
  unfold checkAndResetMonth saveToLocalStorage
  by_cases h : st.currentMonth ≠ now.1 ∨ st.currentYear ≠ now.2
  · rw [if_pos h]; cases sok <;> rfl
  · rw [if_neg h]
    push_neg at h
    obtain ⟨h1, h2⟩ := h
    show st = { st with currentMonth := now.1, currentYear := now.2 }
    rw [← h1, ← h2]

theorem checkAndResetMonth_snd (sok : Bool) (now : Nat × Nat) (st : AppState)
    (store : StoreState) :
    (checkAndResetMonth sok now st store).2
      = if (st.currentMonth ≠ now.1 ∨ st.currentYear ≠ now.2) ∧ sok = true
        then some (.snapshot (snapshotOf
          { st with currentMonth := now.1, currentYear := now.2 }))
        else store := by
  unfold checkAndResetMonth saveToLocalStorage
  by_cases h : st.currentMonth ≠ now.1 ∨ st.currentYear ≠ now.2
  · rw [if_pos h]; cases sok <;> simp [h]
  · rw [if_neg h]; simp [h]

/-- The index of a (0-based month, year) period on the time line. -/
def periodIndex (y m : Nat) : Nat := y * 12 + m

/-- C4 counterexample: a state whose stored period is February 2024 while
the clock reports January 2024 — the "rollover" sets the period to the
strictly EARLIER clock period, so it is not a pure roll forward. -/
theorem checkAndResetMonth_rolls_backward :
    periodIndex
        (checkAndResetMonth true (0, 2024)
          { expenses := [], monthlyBudget := 0, warningTimeoutId := none,
            currentMonth := 1, currentYear := 2024, selectedFilter := "all" }
          none).1.currentYear
        (checkAndResetMonth true (0, 2024)
          { expenses := [], monthlyBudget := 0, warningTimeoutId := none,
            currentMonth := 1, currentYear := 2024, selectedFilter := "all" }
          none).1.currentMonth
      < periodIndex 2024 1 := by decide

/-- C4 (amended): when the stored period differs from the clock's, the month
check updates only the two period fields — setting them to the clock's
period, whether that is later or earlier — and persists immediately when
storage is available; the expense list and every other field are unchanged,
and a matching period leaves state and store untouched. -/
theorem checkAndResetMonth_frame (sok : Bool) (now : Nat × Nat) (st : AppState)
    (store : StoreState) :
    ((checkAndResetMonth sok now st store).1.expenses = st.expenses)
    ∧ (checkAndResetMonth sok now st store).1.monthlyBudget = st.monthlyBudget
    ∧ (checkAndResetMonth sok now st store).1.selectedFilter = st.selectedFilter
    ∧ (checkAndResetMonth sok now st store).1.warningTimeoutId = st.warningTimeoutId
    ∧ (checkAndResetMonth sok now st store).1.currentMonth = now.1
    ∧ (checkAndResetMonth sok now st store).1.currentYear = now.2
    ∧ ((st.currentMonth, st.currentYear) ≠ now →
        (checkAndResetMonth true now st store).2
          = some (.snapshot (snapshotOf (checkAndResetMonth true now st store).1)))
    ∧ ((st.currentMonth, st.currentYear) = now →
        checkAndResetMonth sok now st store = (st, store)) := by
  refine ⟨by rw [checkAndResetMonth_fst], by rw [checkAndResetMonth_fst],
    by rw [checkAndResetMonth_fst], by rw [checkAndResetMonth_fst],
    by rw [checkAndResetMonth_fst], by rw [checkAndResetMonth_fst], ?_, ?_⟩
  · intro hne
    have h : st.currentMonth ≠ now.1 ∨ st.currentYear ≠ now.2 := by
      by_contra hc
      push_neg at hc
      exact hne (by rw [hc.1, hc.2])
    rw [checkAndResetMonth_snd, if_pos ⟨h, rfl⟩, checkAndResetMonth_fst]
  · intro heq
    have h1 : st.currentMonth = now.1 := congrArg Prod.fst heq
    have h2 : st.currentYear = now.2 := congrArg Prod.snd heq
    unfold checkAndResetMonth
    rw [if_neg (by push_neg; exact ⟨h1, h2⟩)]

/-- Witness for C4's amended theorem: the backward-clock input above indeed
keeps the expense list and persists the new period. -/
theorem checkAndResetMonth_frame_witness :
    (checkAndResetMonth true (0, 2024)
        { expenses := [], monthlyBudget := 0, warningTimeoutId := none,
          currentMonth := 1, currentYear := 2024, selectedFilter := "all" }
        none).2
      = some (.snapshot (snapshotOf
          (checkAndResetMonth true (0, 2024)
            { expenses := [], monthlyBudget := 0, warningTimeoutId := none,
              currentMonth := 1, currentYear := 2024, selectedFilter := "all" }
            none).1)) :=
  (checkAndResetMonth_frame true (0, 2024)
    { expenses := [], monthlyBudget := 0, warningTimeoutId := none,
      currentMonth := 1, currentYear := 2024, selectedFilter := "all" }
    none).2.2.2.2.2.2.1 (by decide)

/-- C3: saving and then loading — with the clock still in the saved period,
as on an immediate round trip — reproduces `expenses`, `monthlyBudget`,
`currentMonth` and `currentYear`; the filter and the timer handle are never
written to the store (states differing only there save identically) and are
not restored by load (the loading state keeps its own transient values). -/
theorem save_load_roundtrip (st st0 : AppState) (store store0 : StoreState)
    (sok : Bool) (now : Nat × Nat)
    (hperiod : (st.currentMonth, st.currentYear) = now) :
    ((loadFromLocalStorage sok now st0 (saveToLocalStorage true st store).2).1.expenses
        = st.expenses)
    ∧ (loadFromLocalStorage sok now st0 (saveToLocalStorage true st store).2).1.monthlyBudget
        = st.monthlyBudget
    ∧ (loadFromLocalStorage sok now st0 (saveToLocalStorage true st store).2).1.currentMonth
        = st.currentMonth
    ∧ (loadFromLocalStorage sok now st0 (saveToLocalStorage true st store).2).1.currentYear
        = st.currentYear
    ∧ (loadFromLocalStorage sok now st0 (saveToLocalStorage true st store).2).1.selectedFilter
        = st0.selectedFilter
    ∧ (loadFromLocalStorage sok now st0 (saveToLocalStorage true st store).2).1.warningTimeoutId
        = st0.warningTimeoutId
    ∧ ∀ (f : String) (tid : Option Nat),
        (saveToLocalStorage true
            { st with selectedFilter := f, warningTimeoutId := tid } store0).2
          = (saveToLocalStorage true st store).2 := by
  obtain ⟨nm, ny⟩ := now
  have h1 : st.currentMonth = nm := congrArg Prod.fst hperiod
  have h2 : st.currentYear = ny := congrArg Prod.snd hperiod
  have hload : loadFromLocalStorage sok (nm, ny) st0 (saveToLocalStorage true st store).2
      = (checkAndResetMonth sok (nm, ny)
          { st0 with
            expenses := st.expenses
            monthlyBudget := st.monthlyBudget
            currentMonth := st.currentMonth
            currentYear := st.currentYear }
          (saveToLocalStorage true st store).2) := rfl
  rw [hload, checkAndResetMonth_fst]
  refine ⟨rfl, rfl, by simpa using h1.symm, by simpa using h2.symm, rfl, rfl, ?_⟩
  intro f tid
  rfl

/-- Witness for C3: a concrete save + load round trip preserves a one-element
expense list. -/
theorem save_load_roundtrip_witness :
    (loadFromLocalStorage true (3, 2025)
        (defaultState (3, 2025))
        (saveToLocalStorage true
          { expenses :=
              [{ id := "w1", amount := 42, category := "food",
                 description := "pizza", date := ⟨2025, 4, 2⟩ }],
            monthlyBudget := 500, warningTimeoutId := some 9,
            currentMonth := 3, currentYear := 2025, selectedFilter := "food" }
          none).2).1.expenses
      = [{ id := "w1", amount := 42, category := "food",
           description := "pizza", date := ⟨2025, 4, 2⟩ }] :=
  (save_load_roundtrip
    { expenses :=
        [{ id := "w1", amount := 42, category := "food",
           description := "pizza", date := ⟨2025, 4, 2⟩ }],
      monthlyBudget := 500, warningTimeoutId := some 9,
      currentMonth := 3, currentYear := 2025, selectedFilter := "food" }
    (defaultState (3, 2025)) none none true (3, 2025) rfl).1

/-- C10 (implicit): a stored snapshot that parses and carries an `expenses`
array is installed into the state as-is — no per-record re-validation, so
non-positive amounts, empty descriptions, out-of-range dates and categories
outside the fixed set all enter the store unchanged; a missing `expenses`
field falls back to `[]` and a missing `monthlyBudget` to `0`, and a present
budget value is likewise installed unchecked. -/
theorem loadFromLocalStorage_installs_as_is (sok : Bool) (now : Nat × Nat)
    (st0 : AppState) (p : RawSnapshot) :
    (∀ l : List Expense, p.expenses = some l →
        (loadFromLocalStorage sok now st0 (some (.snapshot p))).1.expenses = l)
    ∧ (p.expenses = none →
        (loadFromLocalStorage sok now st0 (some (.snapshot p))).1.expenses = [])
    ∧ (∀ b : ℚ, p.monthlyBudget = some b →
        (loadFromLocalStorage sok now st0 (some (.snapshot p))).1.monthlyBudget = b)
    ∧ (p.monthlyBudget = none →
        (loadFromLocalStorage sok now st0 (some (.snapshot p))).1.monthlyBudget = 0) := by
  have hload : loadFromLocalStorage sok now st0 (some (.snapshot p))
      = (checkAndResetMonth sok now
          { st0 with
            expenses := p.expenses.getD []
            monthlyBudget := p.monthlyBudget.getD 0
            currentMonth := p.currentMonth.getD now.1
            currentYear := p.currentYear.getD now.2 }
          (some (.snapshot p))) := rfl
  refine ⟨?_, ?_, ?_, ?_⟩
  · intro l h
    rw [hload, checkAndResetMonth_fst]
    simp [h]
  · intro h
    rw [hload, checkAndResetMonth_fst]
    simp [h]
  · intro b h
    rw [hload, checkAndResetMonth_fst]
    simp [h]
  · intro h
    rw [hload, checkAndResetMonth_fst]
    simp [h]

/-- Witness for C10: a snapshot carrying one thoroughly invalid record —
negative amount, empty description, unknown category, out-of-range date —
loads exactly that record into the state. -/
theorem loadFromLocalStorage_installs_as_is_witness :
    (loadFromLocalStorage true (0, 2024) (defaultState (0, 2024))
        (some (.snapshot
          { expenses :=
              some [{ id := "bad", amount := -5, category := "junk",
                      description := "", date := ⟨2024, 13, 99⟩ }],
            monthlyBudget := some (-7),
            currentMonth := some 0, currentYear := some 2024 }))).1.expenses
      = [{ id := "bad", amount := -5, category := "junk",
           description := "", date := ⟨2024, 13, 99⟩ }] :=
  (loadFromLocalStorage_installs_as_is true (0, 2024) (defaultState (0, 2024))
      { expenses :=
          some [{ id := "bad", amount := -5, category := "junk",
                  description := "", date := ⟨2024, 13, 99⟩ }],
        monthlyBudget := some (-7),
        currentMonth := some 0, currentYear := some 2024 }).1 _ rfl

/-!  The display sort of `renderExpenses`:
`[...expenses].sort((a, b) => dateB - dateA, ties by b.id.localeCompare(a.id))`.
`Array.prototype.sort` is a stable sort, whose output is uniquely determined
by the comparator; it is modeled by stable insertion sort on the relation
"the comparator does not order `a` strictly after `b`".  `getTime` of two
parsed `YYYY-MM-DD` dates compares them chronologically, i.e. lexicographically
on (year, month, day); `localeCompare` on the lowercase base-36 ids
`generateId` produces agrees with lexicographic character order. -/

/-- Chronological strict order on calendar dates. -/
def dateLt (x y : CalDate) : Prop :=
  x.year < y.year
    ∨ (x.year = y.year
        ∧ (x.month < y.month ∨ (x.month = y.month ∧ x.day < y.day)))

instance (x y : CalDate) : Decidable (dateLt x y) := by
  unfold dateLt; infer_instance

/-- Sign-model of `new Date(x).getTime() - new Date(y).getTime()` for parsed
`YYYY-MM-DD` dates. -/
def dateCmpInt (x y : CalDate) : Int :=
  if x.year ≠ y.year then (x.year : Int) - y.year
  else if x.month ≠ y.month then (x.month : Int) - y.month
  else (x.day : Int) - y.day

/-- Sign-model of `x.localeCompare(y)` as lexicographic string comparison
(on the lowercase base-36 ids `generateId` produces, locale collation and
lexicographic character order agree).  Stated on the character lists so that
it evaluates. -/
def strCmp (x y : String) : Int :=
  if x.toList < y.toList then -1 else if y.toList < x.toList then 1 else 0

/-- The comparator of the display sort: `dateB - dateA` when the times
differ, else `b.id.localeCompare(a.id)`. -/
def sortCmp (a b : Expense) : Int :=
  if dateCmpInt b.date a.date ≠ 0 then dateCmpInt b.date a.date
  else strCmp b.id a.id

/-- `a` is not ordered strictly after `b` by the comparator; the stable sort
sorts by this relation and keeps input order on ties. -/
def displayRel (a b : Expense) : Prop := sortCmp a b ≤ 0

instance : DecidableRel displayRel := fun a b =>
  (inferInstance : Decidable (sortCmp a b ≤ 0))

/-- `sortForDisplay`: the sorted copy `[...list].sort(comparator)` built in
`renderExpenses`. -/
def sortForDisplay (l : List Expense) : List Expense :=
  List.insertionSort displayRel l

/-- The specification-side ordering: strictly newer date first; on equal
dates the lexicographically larger id first. -/
def DisplayOrder (a b : Expense) : Prop :=
  dateLt b.date a.date ∨ (b.date = a.date ∧ b.id ≤ a.id)

theorem dateCmpInt_neg_iff (x y : CalDate) : dateCmpInt x y < 0 ↔ dateLt x y := by
  obtain ⟨x1, x2, x3⟩ := x
  obtain ⟨y1, y2, y3⟩ := y
  simp only [dateCmpInt, dateLt]
  split_ifs <;> simp_all

theorem dateCmpInt_eq_zero_iff (x y : CalDate) : dateCmpInt x y = 0 ↔ x = y := by
  obtain ⟨x1, x2, x3⟩ := x
  obtain ⟨y1, y2, y3⟩ := y
  simp only [dateCmpInt, CalDate.mk.injEq]
  split_ifs <;> simp_all <;> omega

theorem dateLt_irrefl (x : CalDate) : ¬ dateLt x x := by
  obtain ⟨x1, x2, x3⟩ := x
  simp [dateLt]

theorem dateLt_trans {x y z : CalDate} (h1 : dateLt x y) (h2 : dateLt y z) :
    dateLt x z := by
  obtain ⟨x1, x2, x3⟩ := x
  obtain ⟨y1, y2, y3⟩ := y
  obtain ⟨z1, z2, z3⟩ := z
  simp only [dateLt] at *
  omega

theorem dateLt_trichotomy (x y : CalDate) : dateLt x y ∨ x = y ∨ dateLt y x := by
  obtain ⟨x1, x2, x3⟩ := x
  obtain ⟨y1, y2, y3⟩ := y
  simp only [dateLt, CalDate.mk.injEq]
  omega

theorem strCmp_nonpos_iff (x y : String) : strCmp x y ≤ 0 ↔ x ≤ y := by
  unfold strCmp
  split_ifs with h1 h2
  · simp [le_of_lt (String.lt_iff_toList_lt.mpr h1)]
  · have hnle : ¬ x ≤ y := not_le.mpr (String.lt_iff_toList_lt.mpr h2)
    simp only [hnle, iff_false]
    decide
  · have hteq : x.toList = y.toList := le_antisymm (not_lt.mp h2) (not_lt.mp h1)
    simp [le_of_eq (String.toList_inj.mp hteq)]

theorem displayRel_iff (a b : Expense) : displayRel a b ↔ DisplayOrder a b := by
  unfold displayRel sortCmp DisplayOrder
  by_cases h : dateCmpInt b.date a.date ≠ 0
  · rw [if_pos h]
    have hne : b.date ≠ a.date := fun he => h (by rw [dateCmpInt_eq_zero_iff]; exact he)
    constructor
    · intro hle
      exact Or.inl ((dateCmpInt_neg_iff b.date a.date).mp (lt_of_le_of_ne hle h))
    · rintro (hd | ⟨heq, _⟩)
      · exact le_of_lt ((dateCmpInt_neg_iff b.date a.date).mpr hd)
      · exact absurd heq hne
  · rw [if_neg h]
    push_neg at h
    have heq : b.date = a.date := (dateCmpInt_eq_zero_iff b.date a.date).mp h
    rw [strCmp_nonpos_iff]
    constructor
    · intro hle
      exact Or.inr ⟨heq, hle⟩
    · rintro (hd | ⟨_, hle⟩)
      · rw [heq] at hd
        exact absurd hd (dateLt_irrefl a.date)
      · exact hle

instance : IsTotal Expense displayRel :=
  ⟨fun a b => by
    rw [displayRel_iff, displayRel_iff]
    unfold DisplayOrder
    rcases dateLt_trichotomy b.date a.date with h | h | h
    · exact Or.inl (Or.inl h)
    · rcases le_total b.id a.id with hid | hid
      · exact Or.inl (Or.inr ⟨h, hid⟩)
      · exact Or.inr (Or.inr ⟨h.symm, hid⟩)
    · exact Or.inr (Or.inl h)⟩

instance : IsTrans Expense displayRel :=
  ⟨fun a b c hab hbc => by
    rw [displayRel_iff] at *
    rcases hab with h1 | ⟨h1, hi1⟩ <;> rcases hbc with h2 | ⟨h2, hi2⟩
    · exact Or.inl (dateLt_trans h2 h1)
    · exact Or.inl (h2 ▸ h1)
    · exact Or.inl (h1 ▸ h2)
    · exact Or.inr ⟨h2.trans h1, hi2.trans hi1⟩⟩

theorem displayRel_of_key_eq {a b : Expense} (hd : a.date = b.date)
    (hi : a.id = b.id) : displayRel a b := by
  rw [displayRel_iff]
  exact Or.inr ⟨hd.symm, le_of_eq hi.symm⟩

/-- The sort key of an expense, as the comparator sees it: its date and its
id. -/
def keyPred (k : CalDate × String) (e : Expense) : Bool :=
  e.date == k.1 && e.id == k.2

theorem keyPred_eq_true (k : CalDate × String) (e : Expense) :
    keyPred k e = true ↔ e.date = k.1 ∧ e.id = k.2 := by
  simp [keyPred]

theorem filter_key_orderedInsert (k : CalDate × String) (a : Expense)
    (l : List Expense) :
    (List.orderedInsert displayRel a l).filter (keyPred k)
      = if keyPred k a = true
        then a :: l.filter (keyPred k)
        else l.filter (keyPred k) := by
  induction l with
  | nil =>
      show List.filter (keyPred k) [a] = _
      rw [List.filter_cons]
  | cons b l ih =>
      by_cases hr : displayRel a b
      · rw [List.orderedInsert_of_le displayRel l hr, List.filter_cons]
      · have hoi : List.orderedInsert displayRel a (b :: l)
            = b :: List.orderedInsert displayRel a l := by
          simp [List.orderedInsert, hr]
        rw [hoi, List.filter_cons]
        by_cases hkb : keyPred k b = true
        · rw [if_pos hkb, ih]
          by_cases hka : keyPred k a = true
          · exfalso
            obtain ⟨ha1, ha2⟩ := (keyPred_eq_true k a).mp hka
            obtain ⟨hb1, hb2⟩ := (keyPred_eq_true k b).mp hkb
            exact hr (displayRel_of_key_eq (ha1.trans hb1.symm)
              (ha2.trans hb2.symm))
          · rw [if_neg hka, if_neg hka, List.filter_cons, if_pos hkb]
        · rw [if_neg hkb, ih]
          by_cases hka : keyPred k a = true
          · rw [if_pos hka, if_pos hka, List.filter_cons, if_neg hkb]
          · rw [if_neg hka, if_neg hka, List.filter_cons, if_neg hkb]

theorem sortForDisplay_filter_key (k : CalDate × String) (l : List Expense) :
    (sortForDisplay l).filter (keyPred k) = l.filter (keyPred k) := by
  induction l with
  | nil => rfl
  | cons a l ih =>
      have hs : sortForDisplay (a :: l)
          = List.orderedInsert displayRel a (sortForDisplay l) := rfl
      rw [hs, filter_key_orderedInsert, List.filter_cons]
      by_cases hka : keyPred k a = true
      · rw [if_pos hka, if_pos hka, ih]
      · rw [if_neg hka, if_neg hka, ih]

/-- C5 counterexample: two entries with the same sort key (same date, same
id) but different amounts.  The stable sort keeps equal-key entries in input
order, so swapping them in the input swaps them in the output: reordering
equal-key inputs changes the output, contrary to the claim. -/
theorem sortForDisplay_reorder_changes_output :
    sortForDisplay
        [{ id := "k", amount := 1, category := "food", description := "x",
           date := ⟨2024, 1, 1⟩ },
         { id := "k", amount := 2, category := "food", description := "x",
           date := ⟨2024, 1, 1⟩ }]
      = [{ id := "k", amount := 1, category := "food", description := "x",
           date := ⟨2024, 1, 1⟩ },
         { id := "k", amount := 2, category := "food", description := "x",
           date := ⟨2024, 1, 1⟩ }]
    ∧ sortForDisplay
        [{ id := "k", amount := 2, category := "food", description := "x",
           date := ⟨2024, 1, 1⟩ },
         { id := "k", amount := 1, category := "food", description := "x",
           date := ⟨2024, 1, 1⟩ }]
      = [{ id := "k", amount := 2, category := "food", description := "x",
           date := ⟨2024, 1, 1⟩ },
         { id := "k", amount := 1, category := "food", description := "x",
           date := ⟨2024, 1, 1⟩ }]
    ∧ ([{ id := "k", amount := 2, category := "food", description := "x",
          date := ⟨2024, 1, 1⟩ },
        { id := "k", amount := 1, category := "food", description := "x",
          date := ⟨2024, 1, 1⟩ }] : List Expense)
      ≠ [{ id := "k", amount := 1, category := "food", description := "x",
           date := ⟨2024, 1, 1⟩ },
         { id := "k", amount := 2, category := "food", description := "x",
           date := ⟨2024, 1, 1⟩ }] := by
  refine ⟨by decide, by decide, by decide⟩

/-- C5 (amended): the display sort is a permutation of its input, ordered by
date descending with ties by id descending (lexicographic on the id string);
it is deterministic and stable in the standard sense — expenses with equal
(date, id) keys retain their relative input order — and among entries with
equal dates the lexicographically larger id sorts first. -/
theorem sortForDisplay_sorted_stable (l : List Expense) :
    List.Perm (sortForDisplay l) l
    ∧ List.Pairwise DisplayOrder (sortForDisplay l)
    ∧ (∀ k : CalDate × String,
        (sortForDisplay l).filter (keyPred k) = l.filter (keyPred k))
    ∧ ∀ (i j : Fin (sortForDisplay l).length), i < j →
        ((sortForDisplay l).get i).date = ((sortForDisplay l).get j).date →
        ((sortForDisplay l).get j).id ≤ ((sortForDisplay l).get i).id := by
  have hsorted : List.Pairwise displayRel (sortForDisplay l) :=
    List.sorted_insertionSort displayRel l
  have hpair : List.Pairwise DisplayOrder (sortForDisplay l) :=
    List.Pairwise.imp (fun h => (displayRel_iff _ _).mp h) hsorted
  refine ⟨List.perm_insertionSort displayRel l, hpair,
    fun k => sortForDisplay_filter_key k l, ?_⟩
  intro i j hij hdate
  rcases List.pairwise_iff_get.mp hpair i j hij with h | ⟨_, hid⟩
  · rw [hdate] at h
    exact absurd h (dateLt_irrefl _)
  · exact hid

/-- Witness for C5's amended theorem: two same-day expenses with ids "a" and
"b" — in the sorted output the entry at position 1 has the smaller id. -/
theorem sortForDisplay_sorted_stable_witness :
    ((sortForDisplay
        [{ id := "a", amount := 1, category := "food", description := "x",
           date := ⟨2024, 1, 1⟩ },
         { id := "b", amount := 2, category := "food", description := "y",
           date := ⟨2024, 1, 1⟩ }]).get ⟨1, by decide⟩).id
      ≤ ((sortForDisplay
        [{ id := "a", amount := 1, category := "food", description := "x",
           date := ⟨2024, 1, 1⟩ },
         { id := "b", amount := 2, category := "food", description := "y",
           date := ⟨2024, 1, 1⟩ }]).get ⟨0, by decide⟩).id :=
  (sortForDisplay_sorted_stable
      [{ id := "a", amount := 1, category := "food", description := "x",
         date := ⟨2024, 1, 1⟩ },
       { id := "b", amount := 2, category := "food", description := "y",
         date := ⟨2024, 1, 1⟩ }]).2.2.2
    ⟨0, by decide⟩ ⟨1, by decide⟩ (by decide) (by decide)

/-!  Rendering (`renderExpenses` of the adopted variant): apply the category
filter, present the empty-state placeholder if nothing remains, otherwise
present the sorted copy.  The visual output is abstracted to which of the
two shapes is shown and, for the list shape, the exact expense sequence. -/

def filterExpensesByCategory (expenses : List Expense) (category : String) :
    List Expense :=
  if category = "all" then expenses
  else expenses.filter (fun e => e.category == category)

inductive RenderResult where
  | emptyState
  | list (items : List Expense)
  deriving DecidableEq

def renderExpenses (st : AppState) : RenderResult :=
  if (filterExpensesByCategory st.expenses st.selectedFilter).length = 0 then
    .emptyState
  else
    .list (sortForDisplay (filterExpensesByCategory st.expenses st.selectedFilter))

/-- C6: rendering derives the visible sequence by the selected category
filter (the identity for "all", the matching subset otherwise) followed by
the display sort, and presents the empty-state placeholder exactly when that
visible sequence is empty. -/
theorem renderExpenses_filter_then_sort (st : AppState) :
    (st.selectedFilter = "all" →
        filterExpensesByCategory st.expenses st.selectedFilter = st.expenses)
    ∧ (st.selectedFilter ≠ "all" →
        filterExpensesByCategory st.expenses st.selectedFilter
          = st.expenses.filter (fun e => e.category == st.selectedFilter))
    ∧ renderExpenses st
        = (if (sortForDisplay
                (filterExpensesByCategory st.expenses st.selectedFilter)).length = 0
           then RenderResult.emptyState
           else RenderResult.list
             (sortForDisplay
               (filterExpensesByCategory st.expenses st.selectedFilter))) := by
  refine ⟨fun h => by simp [filterExpensesByCategory, h],
    fun h => by simp [filterExpensesByCategory, h], ?_⟩
  unfold renderExpenses sortForDisplay
  rw [List.length_insertionSort]

/-- Witness for C6 at a concrete state with the "food" filter selected: the
filter stage keeps exactly the matching subset. -/
theorem renderExpenses_filter_then_sort_witness :
    filterExpensesByCategory
        ({ expenses :=
             [{ id := "a1", amount := 7, category := "food",
                description := "lunch", date := ⟨2024, 1, 15⟩ },
              { id := "a2", amount := 3, category := "transport",
                description := "bus", date := ⟨2024, 1, 16⟩ }],
           monthlyBudget := 100, warningTimeoutId := none,
           currentMonth := 0, currentYear := 2024,
           selectedFilter := "food" } : AppState).expenses
        ({ expenses :=
             [{ id := "a1", amount := 7, category := "food",
                description := "lunch", date := ⟨2024, 1, 15⟩ },
              { id := "a2", amount := 3, category := "transport",
                description := "bus", date := ⟨2024, 1, 16⟩ }],
           monthlyBudget := 100, warningTimeoutId := none,
           currentMonth := 0, currentYear := 2024,
           selectedFilter := "food" } : AppState).selectedFilter
      = ({ expenses :=
             [{ id := "a1", amount := 7, category := "food",
                description := "lunch", date := ⟨2024, 1, 15⟩ },
              { id := "a2", amount := 3, category := "transport",
                description := "bus", date := ⟨2024, 1, 16⟩ }],
           monthlyBudget := 100, warningTimeoutId := none,
           currentMonth := 0, currentYear := 2024,
           selectedFilter := "food" } : AppState).expenses.filter
          (fun e => e.category == "food") :=
  (renderExpenses_filter_then_sort
      { expenses :=
          [{ id := "a1", amount := 7, category := "food",
             description := "lunch", date := ⟨2024, 1, 15⟩ },
           { id := "a2", amount := 3, category := "transport",
             description := "bus", date := ⟨2024, 1, 16⟩ }],
        monthlyBudget := 100, warningTimeoutId := none,
        currentMonth := 0, currentYear := 2024,
        selectedFilter := "food" }).2.1 (by decide)

/-!  `validateExpenseForm` and the command bodies `addExpense` /
`deleteExpense`.  Raw form fields arrive parsed: `rawAmount` is the
`parseFloat` of the amount field (`none` for NaN), `rawCategory` and
`rawDescription` the field texts (an unselected category reads as the empty
string, the only falsy string value), `rawDate` the parsed date field
(`none` when empty), `today` the clock's date with the time-of-day zeroed
out, and `freshId` the id `generateId()` returns. -/

/-- Model of `String.prototype.trim`: strip leading and trailing whitespace
characters. -/
def trimJS (s : String) : String :=
  ⟨((s.toList.dropWhile Char.isWhitespace).reverse.dropWhile
      Char.isWhitespace).reverse⟩

inductive ValidationError where
  | invalidAmount
  | missingCategory
  | emptyDescription
  | missingDate
  | futureDate
  deriving DecidableEq

/-- The banner text `showFormError` displays for each failing rule. -/
def errorMessage : ValidationError → String
  | .invalidAmount => "Please enter a valid amount greater than zero"
  | .missingCategory => "Please select a category"
  | .emptyDescription => "Please enter a description"
  | .missingDate => "Please select a date"
  | .futureDate => "Date cannot be in the future"

/-- `validateExpenseForm`: the checks run in source order and the first
failure returns alone; success builds the expense object. -/
def validateExpenseForm (rawAmount : Option ℚ) (rawCategory : String)
    (rawDescription : String) (rawDate : Option CalDate) (today : CalDate)
    (freshId : String) : Except ValidationError Expense :=
  match rawAmount with
  | none => .error .invalidAmount
  | some amount =>
    if amount ≤ 0 then .error .invalidAmount
    else if rawCategory = "" then .error .missingCategory
    else if trimJS rawDescription = "" then .error .emptyDescription
    else
      match rawDate with
      | none => .error .missingDate
      | some date =>
        if dateLt today date then .error .futureDate
        else .ok { id := freshId, amount := amount, category := rawCategory,
                   description := trimJS rawDescription, date := date }

/-- The deferred body of `addExpense`: a validation failure aborts before
any mutation; success pushes the new expense to the end of the stored
sequence and saves. -/
def addExpense (sok : Bool) (st : AppState) (store : StoreState)
    (rawAmount : Option ℚ) (rawCategory rawDescription : String)
    (rawDate : Option CalDate) (today : CalDate) (freshId : String) :
    AppState × StoreState :=
  match validateExpenseForm rawAmount rawCategory rawDescription rawDate
      today freshId with
  | .error _ => (st, store)
  | .ok exp =>
      saveToLocalStorage sok { st with expenses := st.expenses ++ [exp] } store

/-- C7 counterexample: the category rule checks only that the field is
non-empty — a category outside the fixed set passes validation and is
returned inside the built expense. -/
theorem validateExpenseForm_accepts_unknown_category :
    validateExpenseForm (some 5) "banana" "lunch" (some ⟨2024, 1, 10⟩)
        ⟨2024, 1, 20⟩ "id1"
      = .ok { id := "id1", amount := 5, category := "banana",
              description := "lunch", date := ⟨2024, 1, 10⟩ }
    ∧ "banana" ∉ fixedCategories := by
  refine ⟨rfl, by decide⟩

/-- C7 (amended): validation enforces, in this order — the amount parses and
is positive; the category is present (non-empty; membership in the fixed set
is imposed only by the select control, not re-checked here); the description
is non-empty after trimming; the date is present; the date is not after
today under date-only comparison — returning exactly the first failing
rule's error and never more than one; any failure leaves state and store
untouched, and success appends the fully formed expense. -/
theorem validateExpenseForm_first_error (rawAmount : Option ℚ)
    (rawCategory rawDescription : String) (rawDate : Option CalDate)
    (today : CalDate) (freshId : String) :
    ((rawAmount = none ∨ ∃ a : ℚ, rawAmount = some a ∧ a ≤ 0) →
        validateExpenseForm rawAmount rawCategory rawDescription rawDate
            today freshId
          = .error .invalidAmount)
    ∧ (∀ a : ℚ, rawAmount = some a → 0 < a → rawCategory = "" →
        validateExpenseForm rawAmount rawCategory rawDescription rawDate
            today freshId
          = .error .missingCategory)
    ∧ (∀ a : ℚ, rawAmount = some a → 0 < a → rawCategory ≠ "" →
        trimJS rawDescription = "" →
        validateExpenseForm rawAmount rawCategory rawDescription rawDate
            today freshId
          = .error .emptyDescription)
    ∧ (∀ a : ℚ, rawAmount = some a → 0 < a → rawCategory ≠ "" →
        trimJS rawDescription ≠ "" → rawDate = none →
        validateExpenseForm rawAmount rawCategory rawDescription rawDate
            today freshId
          = .error .missingDate)
    ∧ (∀ (a : ℚ) (d : CalDate), rawAmount = some a → 0 < a → rawCategory ≠ "" →
        trimJS rawDescription ≠ "" → rawDate = some d → dateLt today d →
        validateExpenseForm rawAmount rawCategory rawDescription rawDate
            today freshId
          = .error .futureDate)
    ∧ (∀ (a : ℚ) (d : CalDate), rawAmount = some a → 0 < a → rawCategory ≠ "" →
        trimJS rawDescription ≠ "" → rawDate = some d → ¬ dateLt today d →
        validateExpenseForm rawAmount rawCategory rawDescription rawDate
            today freshId
          = .ok { id := freshId, amount := a, category := rawCategory,
                  description := trimJS rawDescription, date := d })
    ∧ (∀ err : ValidationError,
        validateExpenseForm rawAmount rawCategory rawDescription rawDate
            today freshId
          = .error err →
        ∀ (sok : Bool) (st : AppState) (store : StoreState),
          addExpense sok st store rawAmount rawCategory rawDescription
              rawDate today freshId
            = (st, store))
    ∧ (∀ exp : Expense,
        validateExpenseForm rawAmount rawCategory rawDescription rawDate
            today freshId
          = .ok exp →
        ∀ (sok : Bool) (st : AppState) (store : StoreState),
          (addExpense sok st store rawAmount rawCategory rawDescription
              rawDate today freshId).1.expenses
            = st.expenses ++ [exp]) := by
  refine ⟨?_, ?_, ?_, ?_, ?_, ?_, ?_, ?_⟩
  · rintro (h | ⟨a, ha, hle⟩)
    · rw [h]; rfl
    · rw [ha]; simp [validateExpenseForm, hle]
  · intro a ha hpos hcat
    rw [ha]
    simp [validateExpenseForm, not_le.mpr hpos, hcat]
  · intro a ha hpos hcat hdesc
    rw [ha]
    simp [validateExpenseForm, not_le.mpr hpos, hcat, hdesc]
  · intro a ha hpos hcat hdesc hdate
    rw [ha, hdate]
    simp [validateExpenseForm, not_le.mpr hpos, hcat, hdesc]
  · intro a d ha hpos hcat hdesc hdate hfut
    rw [ha, hdate]
    simp [validateExpenseForm, not_le.mpr hpos, hcat, hdesc, hfut]
  · intro a d ha hpos hcat hdesc hdate hfut
    rw [ha, hdate]
    simp [validateExpenseForm, not_le.mpr hpos, hcat, hdesc, hfut]
  · intro err herr sok st store
    unfold addExpense
    rw [herr]
  · intro exp hok sok st store
    unfold addExpense
    rw [hok]
    cases sok <;> rfl

/-- Witness for C7's amended theorem: well-formed concrete inputs validate
to the fully formed expense with the trimmed description. -/
theorem validateExpenseForm_first_error_witness :
    validateExpenseForm (some 5) "food" " lunch " (some ⟨2024, 1, 10⟩)
        ⟨2024, 1, 20⟩ "idw"
      = .ok { id := "idw", amount := 5, category := "food",
              description := trimJS " lunch ", date := ⟨2024, 1, 10⟩ } :=
  (validateExpenseForm_first_error (some 5) "food" " lunch "
      (some ⟨2024, 1, 10⟩) ⟨2024, 1, 20⟩ "idw").2.2.2.2.2.1
    5 ⟨2024, 1, 10⟩ rfl (by norm_num) (by decide) (by decide) rfl (by decide)

/-- The deferred body of `deleteExpense` (run once the exit animation on a
rendered element with this id finishes): drop every expense whose id
matches, then save; the display then recomputes from the new state.  When no
rendered element carries the id the function does nothing at all, which is
likewise a state no-op. -/
def deleteExpense (sok : Bool) (st : AppState) (store : StoreState)
    (expenseId : String) : AppState × StoreState :=
  saveToLocalStorage sok
    { st with expenses := st.expenses.filter (fun e => e.id != expenseId) }
    store

/-- C9: deletion removes exactly the expenses carrying the id and persists
the result; an id absent from the stored list yields no state change and no
error; and deleting the same id twice leaves the same state as deleting it
once. -/
theorem deleteExpense_idempotent_noop (sok : Bool) (st : AppState)
    (store : StoreState) (expenseId : String) :
    ((deleteExpense sok st store expenseId).1.expenses
        = st.expenses.filter (fun e => e.id != expenseId))
    ∧ (∀ e ∈ (deleteExpense sok st store expenseId).1.expenses,
        e.id ≠ expenseId)
    ∧ (∀ e ∈ st.expenses, e.id ≠ expenseId →
        e ∈ (deleteExpense sok st store expenseId).1.expenses)
    ∧ (expenseId ∉ st.expenses.map Expense.id →
        (deleteExpense sok st store expenseId).1 = st)
    ∧ ((deleteExpense true st store expenseId).2
        = some (.snapshot (snapshotOf (deleteExpense true st store expenseId).1)))
    ∧ (∀ store2 : StoreState,
        (deleteExpense sok (deleteExpense sok st store expenseId).1 store2
            expenseId).1
          = (deleteExpense sok st store expenseId).1) := by
  have h1 : ∀ (s : AppState) (stre : StoreState),
      (deleteExpense sok s stre expenseId).1
        = { s with expenses := s.expenses.filter (fun e => e.id != expenseId) } := by
    intro s stre
    cases sok <;> rfl
  have hidem : ∀ l : List Expense,
      (l.filter (fun e => e.id != expenseId)).filter (fun e => e.id != expenseId)
        = l.filter (fun e => e.id != expenseId) :=
    fun l => List.filter_eq_self.mpr (fun a ha => (List.mem_filter.mp ha).2)
  refine ⟨?_, ?_, ?_, ?_, rfl, ?_⟩
  · rw [h1]
  · intro e he
    rw [h1] at he
    have := (List.mem_filter.mp he).2
    simpa using this
  · intro e he hne
    rw [h1]
    exact List.mem_filter.mpr ⟨he, by simpa using hne⟩
  · intro hab
    have hfix : st.expenses.filter (fun e => e.id != expenseId) = st.expenses := by
      apply List.filter_eq_self.mpr
      intro e he
      have : e.id ≠ expenseId := fun h => hab (h ▸ List.mem_map_of_mem Expense.id he)
      simpa using this
    rw [h1, hfix]
  · intro store2
    rw [h1, h1]
    have hproj : ({ st with
          expenses := st.expenses.filter (fun e => e.id != expenseId) } :
            AppState).expenses
        = st.expenses.filter (fun e => e.id != expenseId) := rfl
    rw [hproj, hidem]

/-- Witness for C9: deleting an id absent from a concrete one-expense list
leaves the state exactly as it was. -/
theorem deleteExpense_idempotent_noop_witness :
    (deleteExpense true
        { expenses :=
            [{ id := "e1", amount := 4, category := "food",
               description := "tea", date := ⟨2024, 1, 2⟩ }],
          monthlyBudget := 10, warningTimeoutId := none,
          currentMonth := 0, currentYear := 2024, selectedFilter := "all" }
        none "ghost").1
      = { expenses :=
            [{ id := "e1", amount := 4, category := "food",
               description := "tea", date := ⟨2024, 1, 2⟩ }],
          monthlyBudget := 10, warningTimeoutId := none,
          currentMonth := 0, currentYear := 2024, selectedFilter := "all" } :=
  (deleteExpense_idempotent_noop true
      { expenses :=
          [{ id := "e1", amount := 4, category := "food",
             description := "tea", date := ⟨2024, 1, 2⟩ }],
        monthlyBudget := 10, warningTimeoutId := none,
        currentMonth := 0, currentYear := 2024, selectedFilter := "all" }
      none "ghost").2.2.2.1 (by decide)

/-!  The JavaScript-value layer of the load path.  `loadFromLocalStorage`
performs no type checks: a stored value that parses as JSON but carries
wrong-typed fields is assigned into `appState` verbatim by
`appState.expenses = parsedState.expenses || []` and its three siblings.
The `TypeError` such a value causes afterwards (the display refresh calls
`appState.expenses.filter(...)`) is swallowed by the surrounding `catch`
only after the mutations have been committed.  Arrays are represented by
arrays of expense records; the JSON primitives stand in for the wrong-typed
field values (`JSON.parse` never produces `NaN` or `undefined`; an absent
field is an absent `Option`). -/

inductive JsVal where
  | null
  | bool (b : Bool)
  | num (q : ℚ)
  | str (s : String)
  | expenseArr (l : List Expense)
  deriving DecidableEq

/-- JavaScript truthiness: `null`, `false`, `0` and `""` are falsy; every
object — in particular every array, including `[]` — is truthy. -/
def JsVal.truthy : JsVal → Bool
  | .null => false
  | .bool b => b
  | .num q => q != 0
  | .str s => s != ""
  | .expenseArr _ => true

/-- Whether the value is an array, i.e. has `.filter`/`.length` and the
display refresh after a load does not throw on it. -/
def JsVal.isArray : JsVal → Bool
  | .expenseArr _ => true
  | _ => false

/-- A parsed JSON object in the stored slot: each of the four expected
fields may be absent or hold an arbitrary JSON value. -/
structure JsSnapshot where
  expenses : Option JsVal
  monthlyBudget : Option JsVal
  currentMonth : Option JsVal
  currentYear : Option JsVal
  deriving DecidableEq

inductive JsStoredValue where
  | unparseable
  | obj (p : JsSnapshot)
  deriving DecidableEq

/-- The four persisted slots of `appState` at the JavaScript-value level:
exactly the fields the load path assigns. -/
structure JsAppState where
  expenses : JsVal
  monthlyBudget : JsVal
  currentMonth : JsVal
  currentYear : JsVal
  deriving DecidableEq

/-- The `appState` initializer, restricted to the four persisted slots. -/
def jsDefaultState (now : Nat × Nat) : JsAppState :=
  { expenses := .expenseArr [], monthlyBudget := .num 0,
    currentMonth := .num now.1, currentYear := .num now.2 }

/-- `x || d`: `d` when `x` is falsy (reading an absent field gives
`undefined`, which is falsy), else `x` itself — whatever its type. -/
def jsOrDefault (x : Option JsVal) (d : JsVal) : JsVal :=
  match x with
  | none => d
  | some v => if v.truthy then v else d

/-- `x ?? d`: `d` only for `undefined` (absent field) and `null`. -/
def jsNullish (x : Option JsVal) (d : JsVal) : JsVal :=
  match x with
  | none => d
  | some .null => d
  | some v => v

/-- `checkAndResetMonth` at this level: the installed period values are
compared with `!==` against the clock's numbers and both are overwritten on
any difference. -/
def jsCheckAndResetMonth (now : Nat × Nat) (st : JsAppState) : JsAppState :=
  if st.currentMonth ≠ JsVal.num now.1 ∨ st.currentYear ≠ JsVal.num now.2 then
    { st with currentMonth := .num now.1, currentYear := .num now.2 }
  else st

theorem jsCheckAndResetMonth_expenses (now : Nat × Nat) (st : JsAppState) :
    (jsCheckAndResetMonth now st).expenses = st.expenses := by
  unfold jsCheckAndResetMonth
  split_ifs <;> rfl

/-- `loadFromLocalStorage` at the JavaScript-value level.  The result is
the state left behind when control reaches the end of the `try` or the
`catch`, and whether the body threw (the throw is always caught: the
function itself returns normally on every input).  An un-parseable value
throws at `JSON.parse`, before any mutation; a parsed object is installed
field by field without type checks, the month check runs, and then the
display refresh throws iff the installed `expenses` value is not an
array — after the mutations. -/
def jsLoadFromLocalStorage (now : Nat × Nat) (st : JsAppState)
    (store : Option JsStoredValue) : JsAppState × Bool :=
  match store with
  | none => (st, false)
  | some .unparseable => (st, true)
  | some (.obj p) =>
      let st1 : JsAppState :=
        { expenses := jsOrDefault p.expenses (.expenseArr [])
          monthlyBudget := jsOrDefault p.monthlyBudget (.num 0)
          currentMonth := jsNullish p.currentMonth (.num now.1)
          currentYear := jsNullish p.currentYear (.num now.2) }
      let st2 := jsCheckAndResetMonth now st1
      (st2, !st2.expenses.isArray)

/-- C8 counterexample: a stored value that parses as JSON but types its
`expenses` field as the number 5.  The load path installs `5` into the
state verbatim and the later `TypeError` is caught only after the mutation:
malformed stored data is NOT treated like an absent key, and the resulting
state is not the defaults. -/
theorem jsLoadFromLocalStorage_malformed_not_defaults :
    jsLoadFromLocalStorage (0, 2024) (jsDefaultState (0, 2024))
        (some (.obj { expenses := some (.num 5),
                      monthlyBudget := some (.num 10),
                      currentMonth := some (.num 0),
                      currentYear := some (.num 2024) }))
      = ({ expenses := .num 5, monthlyBudget := .num 10,
           currentMonth := .num 0, currentYear := .num 2024 }, true)
    ∧ ({ expenses := .num 5, monthlyBudget := .num 10,
         currentMonth := .num 0, currentYear := .num 2024 } : JsAppState)
      ≠ jsDefaultState (0, 2024) := by
  refine ⟨by decide, by decide⟩

/-- C8 (amended): persistence failures are never fatal — a failed save
leaves the in-memory state and the old stored value untouched; an absent
key leaves the defaults in place; an un-parseable stored value throws
inside the `try` and is caught with the state unchanged; and the load path
returns normally on every input.  But stored data that parses as JSON with
wrong-typed fields is not normalized to the defaults: a present truthy
`expenses` value of any type is installed verbatim (only an absent or falsy
one falls back to `[]`), and when the installed value is not an array the
`TypeError` of the later display refresh is caught only after the mutation
has been committed. -/
theorem persistence_failures_caught_not_normalized (sok : Bool)
    (now : Nat × Nat) (st : AppState) (store : StoreState)
    (jst : JsAppState) :
    (saveToLocalStorage false st store = (st, store))
    ∧ ((saveToLocalStorage sok st store).1 = st)
    ∧ (jsLoadFromLocalStorage now (jsDefaultState now) none
        = (jsDefaultState now, false))
    ∧ (jsLoadFromLocalStorage now jst (some .unparseable) = (jst, true))
    ∧ (∀ (p : JsSnapshot) (v : JsVal), p.expenses = some v → v.truthy = true →
        (jsLoadFromLocalStorage now jst (some (.obj p))).1.expenses = v)
    ∧ (∀ p : JsSnapshot, p.expenses = none →
        (jsLoadFromLocalStorage now jst (some (.obj p))).1.expenses
          = .expenseArr [])
    ∧ (∀ (p : JsSnapshot) (v : JsVal), p.expenses = some v → v.truthy = false →
        (jsLoadFromLocalStorage now jst (some (.obj p))).1.expenses
          = .expenseArr [])
    ∧ (∀ (p : JsSnapshot) (v : JsVal), p.expenses = some v → v.truthy = true →
        (∀ l : List Expense, v ≠ .expenseArr l) →
        (jsLoadFromLocalStorage now jst (some (.obj p))).2 = true) := by
  have hexp : ∀ p : JsSnapshot,
      (jsLoadFromLocalStorage now jst (some (.obj p))).1.expenses
        = jsOrDefault p.expenses (.expenseArr []) := fun p =>
    jsCheckAndResetMonth_expenses now _
  have hflag : ∀ p : JsSnapshot,
      (jsLoadFromLocalStorage now jst (some (.obj p))).2
        = !(jsOrDefault p.expenses (.expenseArr [])).isArray := fun p => by
    show (!(jsCheckAndResetMonth now _).expenses.isArray) = _
    rw [jsCheckAndResetMonth_expenses]
  refine ⟨rfl, ?_, rfl, rfl, ?_, ?_, ?_, ?_⟩
  · cases sok <;> rfl
  · intro p v h ht
    rw [hexp p, h]
    simp [jsOrDefault, ht]
  · intro p h
    rw [hexp p, h]
    rfl
  · intro p v h ht
    rw [hexp p, h]
    simp [jsOrDefault, ht]
  · intro p v h ht hne
    rw [hflag p, h]
    have hv : jsOrDefault (some v) (.expenseArr []) = v := by
      simp [jsOrDefault, ht]
    rw [hv]
    cases v with
    | null => rfl
    | bool b => rfl
    | num q => rfl
    | str s => rfl
    | expenseArr l => exact absurd rfl (hne l)

/-- Witness for C8's amended theorem: a snapshot typing `expenses` as the
number 7 loads that number into the state verbatim. -/
theorem persistence_failures_caught_not_normalized_witness :
    (jsLoadFromLocalStorage (0, 2024) (jsDefaultState (0, 2024))
        (some (.obj { expenses := some (.num 7),
                      monthlyBudget := some (.num 1),
                      currentMonth := some (.num 0),
                      currentYear := some (.num 2024) }))).1.expenses
      = .num 7 :=
  (persistence_failures_caught_not_normalized true (0, 2024)
      (defaultState (0, 2024)) none (jsDefaultState (0, 2024))).2.2.2.2.1
    { expenses := some (.num 7), monthlyBudget := some (.num 1),
      currentMonth := some (.num 0), currentYear := some (.num 2024) }
    (.num 7) rfl (by decide)
